import Mathlib

/-!
Verification of the message-to-expense extraction pipeline of the
cashflow bot service (`src/bot-service`), shallowly embedded in Lean 4.

Modelling conventions:
* Python `float` amounts are modelled as exact rationals (`ℚ`); Python's
  `round(v, 2)` is round-half-to-even at 2 fractional digits (`pyRound2`),
  which agrees with the float behaviour at every input value used below
  (all of them exactly representable or unambiguously away from a tie).
* Python strings are modelled as `String` / `List Char` (a Python `str`
  is a sequence of code points, matching `List Char`).
* Raising an exception is modelled by `Except String`, Python truthiness
  of optional fields by the `truthy_*` functions.
* The external collaborators (LLM provider, `json.loads`, the database
  session) are parameters of the embedded functions: the provider is a
  function from attempt number to outcome, the JSON decoder is a function
  argument, and the store is a list of rows plus a failure flag.
-/

/-- `ExpenseCategory` from `src/schemas/schemas.py`: the closed enumeration
of 11 valid expense categories. -/
inductive ExpenseCategory where
  | housing
  | transportation
  | food
  | utilities
  | insurance
  | medicalHealthcare
  | savings
  | debt
  | education
  | entertainment
  | other
deriving DecidableEq, Repr

/-- The string value of each enum member (`cat.value` in the source). -/
def ExpenseCategory.value : ExpenseCategory → String
  | .housing => "Housing"
  | .transportation => "Transportation"
  | .food => "Food"
  | .utilities => "Utilities"
  | .insurance => "Insurance"
  | .medicalHealthcare => "Medical/Healthcare"
  | .savings => "Savings"
  | .debt => "Debt"
  | .education => "Education"
  | .entertainment => "Entertainment"
  | .other => "Other"

/-- Round-half-to-even to the nearest integer, the rounding mode of
Python's builtin `round`. -/
def roundHalfEven (q : ℚ) : ℤ :=
  let f : ℤ := ⌊q⌋
  let r : ℚ := q - f
  if r < 1/2 then f
  else if 1/2 < r then f + 1
  else if f % 2 = 0 then f else f + 1

/-- Python's `round(v, 2)`: round-half-to-even at 2 fractional digits. -/
def pyRound2 (v : ℚ) : ℚ :=
  (roundHalfEven (v * 100) : ℚ) / 100

/-- `ExpenseExtraction` from `src/schemas/schemas.py`: the raw shape of the
validated LLM output. -/
structure ExpenseExtraction where
  is_expense : Bool
  description : Option String
  amount : Option ℚ
  category : Option ExpenseCategory
deriving DecidableEq, Repr

/-- Pydantic construction of `ExpenseExtraction`: the field constraint
`gt=0` rejects a non-positive amount, after which the `validate_amount`
after-mode validator rounds the accepted value to 2 decimal places
(`round(v, 2)`). A `None` amount is accepted unchanged. -/
def mkExpenseExtraction (is_expense : Bool) (description : Option String)
    (amount : Option ℚ) (category : Option ExpenseCategory) :
    Except String ExpenseExtraction :=
  match amount with
  | none => .ok ⟨is_expense, description, none, category⟩
  | some v =>
      if 0 < v then
        .ok ⟨is_expense, description, some (pyRound2 v), category⟩
      else
        .error "Input should be greater than 0"

/-- `ExpenseResponse` from `src/schemas/schemas.py`: the Outcome handed
back to the caller. -/
structure ExpenseResponse where
  success : Bool
  message : String
  expense_id : Option ℕ
deriving DecidableEq, Repr

/-- `ExpenseCreate` from `src/schemas/schemas.py` (fields only; validation
is in `mkExpenseCreate`). -/
structure ExpenseCreate where
  user_id : ℤ
  description : String
  amount : ℚ
  category : ExpenseCategory
deriving DecidableEq, Repr

/-- The `amount` field constraint `decimal_places=2` of `ExpenseCreate`:
the value has at most 2 fractional decimal digits. -/
def decimalPlaces2 (q : ℚ) : Bool :=
  (q * 100).den = 1

/-- Pydantic construction of `ExpenseCreate`: `user_id` must be `gt=0`,
`description` must have length in `[1, 500]`, `amount` must be `gt=0` with
`decimal_places=2`. -/
def mkExpenseCreate (user_id : ℤ) (description : String) (amount : ℚ)
    (category : ExpenseCategory) : Except String ExpenseCreate :=
  if user_id ≤ 0 then .error "Input should be greater than 0"
  else if description.length < 1 then .error "String should have at least 1 character"
  else if 500 < description.length then .error "String should have at most 500 characters"
  else if amount ≤ 0 then .error "Input should be greater than 0"
  else if ¬ decimalPlaces2 amount then .error "Decimal input should have no more than 2 decimal places"
  else .ok ⟨user_id, description, amount, category⟩

/-- A persisted `Expense` row (`src/models/models.py`): id, owner,
description, amount and the category's string value. -/
structure Expense where
  id : ℕ
  user_id : ℤ
  description : String
  amount : ℚ
  category : String
deriving DecidableEq, Repr

/-- `ExpenseService.create_expense`: builds the ORM `Expense` row from the
validated data and commits it. The database session is modelled by the
list of rows already present plus a flag saying whether the commit fails
(store unavailable); a fresh row receives the next id. -/
def create_expense (expense_data : ExpenseCreate) (store_fails : Bool)
    (db : List Expense) : Except String (Expense × List Expense) :=
  if store_fails then .error "store unavailable"
  else
    let expense : Expense :=
      ⟨db.length + 1, expense_data.user_id, expense_data.description,
        expense_data.amount, expense_data.category.value⟩
    .ok (expense, db ++ [expense])

/-- Python truthiness of the optional `description` field: `None` and the
empty string are falsy. -/
def truthy_str : Option String → Bool
  | none => false
  | some s => decide (s ≠ "")

/-- Python truthiness of the optional `amount` field: `None` and `0.0`
are falsy. -/
def truthy_amount : Option ℚ → Bool
  | none => false
  | some q => decide (q ≠ 0)

/-- Python truthiness of the optional `category` field: every member of
the enumeration has a non-empty string value, so presence is truthiness. -/
def truthy_cat : Option ExpenseCategory → Bool :=
  Option.isSome

/-- The "not an expense" reply of `process_message`. -/
def notExpenseMessage : String :=
  "This doesn\x27t look like an expense. Try something like: \x27Pizza 20 reais\x27"

/-- The "incomplete extraction" reply of `process_message`. -/
def incompleteMessage : String :=
  "Could not extract all expense details. Please provide description, amount, and try again."

/-- The generic error reply of the `except` handler of `process_message`. -/
def genericErrorMessage : String :=
  "Sorry, there was an error processing your expense. Please try again."

/-- `ExpenseService.process_message` from `src/services/expense_service.py`.
The extraction engine's behaviour is passed in as `extraction_result`
(`.error` when `extract_expense` raises after exhausting its retries).
Every exception raised inside the `try` block — including a pydantic
`ValidationError` from `ExpenseCreate` and a store failure inside
`create_expense` — is absorbed by the `except` handler into the generic
error response. `Decimal(str(extraction.amount))` is the identity in the
exact-rational model, because a validated amount has at most 2 decimal
places. Returns the response together with the resulting store contents. -/
def process_message (user_id : ℤ)
    (extraction_result : Except String ExpenseExtraction)
    (store_fails : Bool) (db : List Expense) :
    ExpenseResponse × List Expense :=
  match extraction_result with
  | .error _ => (⟨false, genericErrorMessage, none⟩, db)
  | .ok extraction =>
      if extraction.is_expense = false then
        (⟨false, notExpenseMessage, none⟩, db)
      else if ¬ (truthy_str extraction.description
            && truthy_amount extraction.amount
            && truthy_cat extraction.category) then
        (⟨false, incompleteMessage, none⟩, db)
      else
        match mkExpenseCreate user_id (extraction.description.getD "")
            (extraction.amount.getD 0) (extraction.category.getD .other) with
        | .error _ => (⟨false, genericErrorMessage, none⟩, db)
        | .ok expense_create =>
            match create_expense expense_create store_fails db with
            | .error _ => (⟨false, genericErrorMessage, none⟩, db)
            | .ok (expense, db2) =>
                (⟨true,
                  (extraction.category.getD .other).value ++ " expense added ✅",
                  some expense.id⟩, db2)

/-- Tenacity's `wait_exponential(multiplier, min, max)` at a given attempt
number: `multiplier * 2 ^ attempt_number`, clamped to `[min, max]`. -/
def wait_exponential (multiplier mn mx : ℚ) (attempt_number : ℕ) : ℚ :=
  max (max 0 mn) (min (multiplier * 2 ^ attempt_number) mx)

/-- `LLMService.extract_expense` under
`retry(stop=stop_after_attempt(3), wait=wait_exponential(multiplier=1, min=2, max=10), reraise=True)`.
One attempt of the decorated body (LLM call → parse → validate, which
either returns a validated `ExpenseExtraction` or raises) is the
behaviour `b`, a function from the 1-based attempt number to that
attempt's outcome. `stop_after_attempt(3)` makes attempt 1 and at most 2
retries, sleeping `wait_exponential 1 2 10 k` after failed attempt `k`
when another attempt remains, and `reraise=True` re-raises the last
attempt's error on exhaustion. Returns the final outcome, the number of
the last attempt made, and the list of backoff delays slept. -/
def extract_expense (b : ℕ → Except String ExpenseExtraction) :
    Except String ExpenseExtraction × ℕ × List ℚ :=
  match b 1 with
  | .ok r => (.ok r, 1, [])
  | .error _ =>
      match b 2 with
      | .ok r => (.ok r, 2, [wait_exponential 1 2 10 1])
      | .error _ =>
          (b 3, 3, [wait_exponential 1 2 10 1, wait_exponential 1 2 10 2])

/-- First index of a character in a list of characters
(Python `str.find`, with `None` for `-1`). -/
def strFind (c : Char) : List Char → Option ℕ
  | [] => none
  | a :: as => if a = c then some 0 else (strFind c as).map (· + 1)

/-- Last index of a character in a list of characters
(Python `str.rfind`, with `None` for `-1`). -/
def strRfind (c : Char) (s : List Char) : Option ℕ :=
  (strFind c s.reverse).map (fun i => s.length - 1 - i)

/-- `LLMService._extract_and_parse_json`: slice the text from the first
`\x7b` to the last `\x7d` inclusive and hand the slice to the JSON decoder
(`json.loads` followed by `ExpenseExtraction(**data)`, passed in as the
external function `loads`). When either brace is missing
(`start_idx == -1 or end_idx == 0`) it raises `ValueError`. -/
def extract_and_parse_json (loads : List Char → Except String ExpenseExtraction)
    (text : List Char) : Except String ExpenseExtraction :=
  match strFind '{' text, strRfind '}' text with
  | some start_idx, some last_idx =>
      loads ((text.drop start_idx).take (last_idx + 1 - start_idx))
  | _, _ => .error "No JSON found in response"

/-- `Settings` from `src/utils/config.py` (the fields provider selection
and client construction depend on). -/
structure Settings where
  llm_model : List Char
  openai_api_key : Option String
  anthropic_api_key : Option String
deriving DecidableEq, Repr

/-- `b` starts with the characters of `a`. -/
def startsWith : List Char → List Char → Bool
  | [], _ => true
  | _ :: _, [] => false
  | a :: as, b :: bs => a == b && startsWith as bs

/-- Python's `needle in haystack` substring test. -/
def containsSub (needle : List Char) : List Char → Bool
  | [] => startsWith needle []
  | c :: cs => startsWith needle (c :: cs) || containsSub needle cs

/-- Python's `str.lower` (ASCII model, enough for model names). -/
def strLower (s : List Char) : List Char :=
  s.map Char.toLower

/-- `Settings.get_llm_provider`: substring match on the lowered model
name; `"gpt"` selects `"openai"`, otherwise `"claude"` selects
`"anthropic"`, otherwise default `"openai"`. -/
def get_llm_provider (s : Settings) : String :=
  if containsSub "gpt".toList (strLower s.llm_model) then "openai"
  else if containsSub "claude".toList (strLower s.llm_model) then "anthropic"
  else "openai"

/-- The constructed LLM client (`ChatOpenAI` / `ChatAnthropic` with the
configured model and credential). -/
inductive LLMClient where
  | chatOpenAI (model : List Char) (key : String)
  | chatAnthropic (model : List Char) (key : String)
deriving DecidableEq, Repr

/-- The configuration error taxonomy of `LLMService._initialize_llm`
(raised as `ValueError` in the source; `ConfigurationError` in the spec). -/
inductive ConfigError where
  | missingKey (provider : String)
  | unsupported (provider : String)
deriving DecidableEq, Repr

/-- Python truthiness of an optional credential: `None` and `""` are
falsy (`if not self.settings.openai_api_key`). -/
def truthy_key : Option String → Bool
  | none => false
  | some s => decide (s ≠ "")

/-- `LLMService._initialize_llm`: dispatch on `get_llm_provider`; each
branch raises when its credential is absent, and the final branch raises
"Unsupported LLM provider". Runs at construction time of `LLMService`,
before any call is made. -/
def init_llm (s : Settings) : Except ConfigError LLMClient :=
  let provider := get_llm_provider s
  if provider = "openai" then
    if truthy_key s.openai_api_key then
      .ok (.chatOpenAI s.llm_model (s.openai_api_key.getD ""))
    else .error (.missingKey "openai")
  else if provider = "anthropic" then
    if truthy_key s.anthropic_api_key then
      .ok (.chatAnthropic s.llm_model (s.anthropic_api_key.getD ""))
    else .error (.missingKey "anthropic")
  else .error (.unsupported provider)

/-! ## Helper lemmas -/

/-- The rounded amount always has at most 2 decimal places, so the
`decimal_places=2` constraint of `ExpenseCreate` accepts it. -/
theorem decimalPlaces2_pyRound2 (a : ℚ) : decimalPlaces2 (pyRound2 a) = true := by
  unfold decimalPlaces2 pyRound2
  rw [div_mul_cancel₀ _ (by norm_num : (100 : ℚ) ≠ 0)]
  simp

/-- Successful construction of an `ExpenseExtraction` with all fields
present forces a positive raw amount and determines every field. -/
theorem mkExpenseExtraction_ok {ie : Bool} {d : Option String} {a : ℚ}
    {c : Option ExpenseCategory} {x : ExpenseExtraction}
    (h : mkExpenseExtraction ie d (some a) c = .ok x) :
    0 < a ∧ x = ⟨ie, d, some (pyRound2 a), c⟩ := by
  by_cases ha : 0 < a
  · refine ⟨ha, ?_⟩
    simp [mkExpenseExtraction, ha] at h
    exact h.symm
  · simp [mkExpenseExtraction, ha] at h

/-! ## Claims -/

/-- C7: for every combination of the other fields, constructing an
`ExpenseExtraction` with amount `-5` or amount `0` is rejected with a
validation error (the amount is not floored or clamped), so such a
completion counts as a failed parse attempt. -/
theorem C7_nonpositive_amount_rejected (ie : Bool) (d : Option String)
    (c : Option ExpenseCategory) :
    mkExpenseExtraction ie d (some (-5)) c = .error "Input should be greater than 0" ∧
    mkExpenseExtraction ie d (some 0) c = .error "Input should be greater than 0" := by
  constructor <;> norm_num [mkExpenseExtraction]

/-- C9: the amount rounding of `ExpenseExtraction` construction is
round-half-to-even: at every exact tie `k + 1/2` the integer rounding
picks the even neighbour, the exactly representable input `0.125` is
rounded to `0.12` (not `0.13`), and `20.999`, away from the boundary,
still rounds to `21.0`. -/
theorem C9_round_half_to_even :
    (∀ k : ℤ, roundHalfEven ((k : ℚ) + 1/2) = if k % 2 = 0 then k else k + 1) ∧
    mkExpenseExtraction true (some "x") (some (1/8)) (some .food)
      = .ok ⟨true, some "x", some (12/100), some .food⟩ ∧
    (12/100 : ℚ) ≠ 13/100 ∧
    mkExpenseExtraction true (some "x") (some (20999/1000)) (some .food)
      = .ok ⟨true, some "x", some 21, some .food⟩ := by
  refine ⟨?_, ?_, by norm_num, ?_⟩
  · intro k
    have hf : ⌊(k : ℚ) + 1/2⌋ = k := by
      rw [Int.floor_int_add]
      norm_num
    simp only [roundHalfEven, hf]
    have hr : ((k : ℚ) + 1/2) - (k : ℚ) = 1/2 := by ring
    rw [hr]
    simp
  · norm_num [mkExpenseExtraction, pyRound2, roundHalfEven]
  · norm_num [mkExpenseExtraction, pyRound2, roundHalfEven]

/-- C6: construction at the raw amount `0.004` exhibits the slip in the
code: the `gt=0` constraint is checked on the raw value *before* the
after-mode rounding validator runs, so `0.004` is accepted and rounded
down to `0.0` — the constructed `ExpenseExtraction` carries a present
amount equal to `0`, which is not strictly positive (contradicting the
declared `gt=0` field constraint), and downstream the truthiness test of
`process_message` then treats this expense as incomplete. -/
theorem C6_rounding_can_zero_amount :
    mkExpenseExtraction true (some "tip") (some (1/250)) (some .other)
      = .ok ⟨true, some "tip", some 0, some .other⟩ ∧
    truthy_amount (some (0 : ℚ)) = false := by
  constructor
  · norm_num [mkExpenseExtraction, pyRound2, roundHalfEven]
  · simp [truthy_amount]

/-- C10: for every settings value `get_llm_provider` returns only
`"openai"` or `"anthropic"`, so `init_llm` always takes one of the two
provider branches: it either constructs a client or fails for a missing
credential, and the "Unsupported LLM provider" branch is unreachable. -/
theorem C10_unsupported_branch_unreachable (s : Settings) :
    (get_llm_provider s = "openai" ∨ get_llm_provider s = "anthropic") ∧
    ((∃ c, init_llm s = .ok c) ∨
      (∃ p, init_llm s = .error (ConfigError.missingKey p))) := by
  have hsel : get_llm_provider s = "openai" ∨ get_llm_provider s = "anthropic" := by
    unfold get_llm_provider
    by_cases h1 : containsSub "gpt".toList (strLower s.llm_model) = true
    · rw [if_pos h1]; exact Or.inl rfl
    · rw [if_neg h1]
      by_cases h2 : containsSub "claude".toList (strLower s.llm_model) = true
      · rw [if_pos h2]; exact Or.inr rfl
      · rw [if_neg h2]; exact Or.inl rfl
  refine ⟨hsel, ?_⟩
  rcases hsel with hp | hp
  · unfold init_llm
    rw [hp]
    by_cases h3 : truthy_key s.openai_api_key = true
    · rw [if_pos (by simp), if_pos h3]
      exact Or.inl ⟨_, rfl⟩
    · rw [if_pos (by simp), if_neg h3]
      exact Or.inr ⟨"openai", rfl⟩
  · unfold init_llm
    rw [hp]
    by_cases h3 : truthy_key s.anthropic_api_key = true
    · rw [if_neg (by simp), if_pos (by simp), if_pos h3]
      exact Or.inl ⟨_, rfl⟩
    · rw [if_neg (by simp), if_pos (by simp), if_neg h3]
      exact Or.inr ⟨"anthropic", rfl⟩

/-- C8: the LLM client variant is selected by substring match on the
lowered model name — containing `"gpt"` selects `"openai"`, otherwise
containing `"claude"` selects `"anthropic"`, any other name defaults to
`"openai"` — and whenever the selected provider's credential is absent
(Python-falsy), `init_llm`, which runs at `LLMService` construction time
before any call, fails with the configuration error. -/
theorem C8_provider_selection_and_credentials (s : Settings) :
    (containsSub "gpt".toList (strLower s.llm_model) = true →
      get_llm_provider s = "openai") ∧
    (containsSub "gpt".toList (strLower s.llm_model) = false →
      containsSub "claude".toList (strLower s.llm_model) = true →
      get_llm_provider s = "anthropic") ∧
    (containsSub "gpt".toList (strLower s.llm_model) = false →
      containsSub "claude".toList (strLower s.llm_model) = false →
      get_llm_provider s = "openai") ∧
    (get_llm_provider s = "openai" → truthy_key s.openai_api_key = false →
      init_llm s = .error (ConfigError.missingKey "openai")) ∧
    (get_llm_provider s = "anthropic" → truthy_key s.anthropic_api_key = false →
      init_llm s = .error (ConfigError.missingKey "anthropic")) := by
  refine ⟨fun h1 => ?_, fun h1 h2 => ?_, fun h1 h2 => ?_, fun hp hk => ?_, fun hp hk => ?_⟩
  · unfold get_llm_provider
    rw [if_pos h1]
  · unfold get_llm_provider
    rw [if_neg (by rw [h1]; simp), if_pos h2]
  · unfold get_llm_provider
    rw [if_neg (by rw [h1]; simp), if_neg (by rw [h2]; simp)]
  · unfold init_llm
    rw [hp, if_pos (by simp), if_neg (by rw [hk]; simp)]
  · unfold init_llm
    rw [hp, if_neg (by simp), if_pos (by simp), if_neg (by rw [hk]; simp)]

/-- Witness for C8 at a concrete configuration: model `"claude-3-sonnet"`
with no Anthropic credential selects the Anthropic variant and fails at
construction time. -/
theorem C8_witness :
    get_llm_provider ⟨"claude-3-sonnet".toList, some "sk-123", none⟩ = "anthropic" ∧
    init_llm ⟨"claude-3-sonnet".toList, some "sk-123", none⟩
      = .error (ConfigError.missingKey "anthropic") := by
  have h := C8_provider_selection_and_credentials
    ⟨"claude-3-sonnet".toList, some "sk-123", none⟩
  have hp := h.2.1 (by decide) (by decide)
  exact ⟨hp, h.2.2.2.2 hp (by decide)⟩

/-- C4: the retry envelope of `extract_expense` makes at most 3 total
attempts with exponential backoff clamped to `[2, 10]` time-units: every
delay is between 2 and 10, the delays actually slept before attempts 2
and 3 are 2 and 4, a behaviour failing twice then succeeding on the 3rd
attempt yields that success, a behaviour failing on all 3 attempts yields
the 3rd attempt's error (`reraise`), and the result depends only on the
first 3 attempts — a 4th attempt is never consulted. -/
theorem C4_retry_policy (b : ℕ → Except String ExpenseExtraction) :
    (extract_expense b).2.1 ≤ 3 ∧
    (∀ k, 2 ≤ wait_exponential 1 2 10 k ∧ wait_exponential 1 2 10 k ≤ 10) ∧
    (∀ e1 e2 r, b 1 = .error e1 → b 2 = .error e2 → b 3 = .ok r →
      extract_expense b = (.ok r, 3, [2, 4])) ∧
    (∀ e1 e2 e3, b 1 = .error e1 → b 2 = .error e2 → b 3 = .error e3 →
      extract_expense b = (.error e3, 3, [2, 4])) ∧
    (∀ b2 : ℕ → Except String ExpenseExtraction,
      (∀ k, k ≤ 3 → b2 k = b k) → extract_expense b2 = extract_expense b) := by
  have hw1 : wait_exponential 1 2 10 1 = 2 := by
    norm_num [wait_exponential]
  have hw2 : wait_exponential 1 2 10 2 = 4 := by
    norm_num [wait_exponential]
  refine ⟨?_, ?_, ?_, ?_, ?_⟩
  · rcases hb1 : b 1 with e1 | r1 <;> rcases hb2 : b 2 with e2 | r2 <;>
      simp [extract_expense, hb1, hb2]
  · intro k
    constructor
    · exact le_max_of_le_left (by norm_num)
    · exact max_le (by norm_num) (min_le_right _ _)
  · intro e1 e2 r h1 h2 h3
    simp [extract_expense, h1, h2, h3, hw1, hw2]
  · intro e1 e2 e3 h1 h2 h3
    simp [extract_expense, h1, h2, h3, hw1, hw2]
  · intro b2 hagree
    unfold extract_expense
    rw [hagree 1 (by norm_num), hagree 2 (by norm_num), hagree 3 (by norm_num)]

/-- Witness for C4: a provider behaviour failing on attempts 1 and 2 and
succeeding on attempt 3 yields the successful extraction after exactly 3
attempts with backoff delays 2 and 4, and one failing on all attempts
surfaces the last error. -/
theorem C4_witness :
    extract_expense (fun k => if k = 3 then .ok ⟨false, none, none, none⟩
        else .error "timeout")
      = (.ok ⟨false, none, none, none⟩, 3, [2, 4]) ∧
    extract_expense (fun _ => .error "timeout")
      = (.error "timeout", 3, [2, 4]) := by
  constructor
  · exact (C4_retry_policy _).2.2.1 "timeout" "timeout" ⟨false, none, none, none⟩
      rfl rfl rfl
  · exact (C4_retry_policy _).2.2.2.1 "timeout" "timeout" "timeout" rfl rfl rfl

/-- C3: for every extraction result with `is_expense = false`,
`process_message` returns success=false with the "doesn't look like an
expense" message and no expense id, and the store is unchanged — no
expense is persisted. -/
theorem C3_not_an_expense (uid : ℤ) (x : ExpenseExtraction) (sf : Bool)
    (db : List Expense) (h : x.is_expense = false) :
    process_message uid (.ok x) sf db = (⟨false, notExpenseMessage, none⟩, db) := by
  simp [process_message, h]

/-- Witness for C3 at the spec's own scenario: the mocked extraction
`is_expense=false` for message "hi" yields a failure outcome with a null
expense id and an empty store. -/
theorem C3_witness :
    process_message 123 (.ok ⟨false, none, none, none⟩) false []
      = (⟨false, notExpenseMessage, none⟩, []) :=
  C3_not_an_expense 123 ⟨false, none, none, none⟩ false [] rfl

/-- C1: `process_message` is a total function into outcomes (it never
raises): every failure outcome carries no expense id and a non-empty
explanatory message, an extraction-engine failure yields the generic
error outcome with the store untouched, and a persistence failure during
the insert also yields a non-success outcome with the store untouched —
never a partial success. -/
theorem C1_always_resolves_to_outcome (uid : ℤ)
    (ext : Except String ExpenseExtraction) (sf : Bool) (db : List Expense) :
    ((process_message uid ext sf db).1.success = false →
      (process_message uid ext sf db).1.expense_id = none ∧
      (process_message uid ext sf db).1.message ≠ "") ∧
    (∀ e, ext = .error e →
      process_message uid ext sf db = (⟨false, genericErrorMessage, none⟩, db)) ∧
    (sf = true →
      (process_message uid ext sf db).1.success = false ∧
      (process_message uid ext sf db).1.expense_id = none ∧
      (process_message uid ext sf db).2 = db) := by
  have hmsg1 : notExpenseMessage ≠ "" := by decide
  have hmsg2 : incompleteMessage ≠ "" := by decide
  have hmsg3 : genericErrorMessage ≠ "" := by decide
  rcases ext with e | x
  · exact ⟨fun _ => ⟨rfl, hmsg3⟩, fun _ _ => rfl, fun _ => ⟨rfl, rfl, rfl⟩⟩
  · refine ⟨?_, ?_, ?_⟩
    · by_cases hie : x.is_expense = false
      · simp [process_message, hie, hmsg1]
      · have hie2 : x.is_expense = true := by simpa using hie
        by_cases hg : (truthy_str x.description && truthy_amount x.amount
            && truthy_cat x.category) = true
        · rcases hmk : mkExpenseCreate uid (x.description.getD "")
              (x.amount.getD 0) (x.category.getD .other) with err | ec
          · simp [process_message, hie2, hg, hmk, hmsg3]
          · rcases hce : create_expense ec sf db with err2 | pr
            · simp [process_message, hie2, hg, hmk, hce, hmsg3]
            · obtain ⟨e2, db2⟩ := pr
              simp [process_message, hie2, hg, hmk, hce]
        · simp [process_message, hie2, hg, hmsg2]
    · intro e h
      cases h
    · intro hsf
      subst hsf
      by_cases hie : x.is_expense = false
      · simp [process_message, hie]
      · have hie2 : x.is_expense = true := by simpa using hie
        by_cases hg : (truthy_str x.description && truthy_amount x.amount
            && truthy_cat x.category) = true
        · rcases hmk : mkExpenseCreate uid (x.description.getD "")
              (x.amount.getD 0) (x.category.getD .other) with err | ec
          · simp [process_message, hie2, hg, hmk]
          · simp [process_message, hie2, hg, hmk, create_expense]
        · simp [process_message, hie2, hg]

/-- Witness for C1 at concrete failures: an extraction-engine error and a
store failure during the insert both resolve to failure outcomes with
nothing persisted. -/
theorem C1_witness :
    process_message 1 (.error "retries exhausted") true []
      = (⟨false, genericErrorMessage, none⟩, []) ∧
    (process_message 2 (.ok ⟨true, some "Pizza", some 20, some .food⟩) true
        []).1.success = false ∧
    (process_message 2 (.ok ⟨true, some "Pizza", some 20, some .food⟩) true
        []).2 = [] := by
  refine ⟨(C1_always_resolves_to_outcome 1 (.error "retries exhausted") true
      []).2.1 "retries exhausted" rfl, ?_, ?_⟩
  · exact ((C1_always_resolves_to_outcome 2
      (.ok ⟨true, some "Pizza", some 20, some .food⟩) true []).2.2 rfl).1
  · exact ((C1_always_resolves_to_outcome 2
      (.ok ⟨true, some "Pizza", some 20, some .food⟩) true []).2.2 rfl).2.2

/-- A non-empty string has length at least 1. -/
theorem one_le_length_of_ne_empty {s : String} (h : s ≠ "") : 1 ≤ s.length := by
  cases s with
  | mk data =>
    cases data with
    | nil => simp at h
    | cons a as => simp [String.length]

/-- C2 (amended): for every positive user id, every extraction
successfully constructed with `is_expense=true` and a complete triple —
description present, non-empty and at most 500 characters, rounded amount
strictly positive, category a member of the enumeration — and a working
store, `process_message` persists exactly one `Expense` row whose amount
is the extracted amount rounded to 2 decimal places and whose category is
the enum member's value, and returns success=true with the
category-specific confirmation message and the new row's id. -/
theorem C2_complete_triple_persists (uid : ℤ) (d : String) (a : ℚ)
    (c : ExpenseCategory) (x : ExpenseExtraction) (db : List Expense)
    (hmk : mkExpenseExtraction true (some d) (some a) (some c) = .ok x)
    (hu : 0 < uid) (hd1 : d ≠ "") (hd2 : d.length ≤ 500)
    (ha : 0 < pyRound2 a) :
    process_message uid (.ok x) false db
      = (⟨true, c.value ++ " expense added ✅", some (db.length + 1)⟩,
        db ++ [⟨db.length + 1, uid, d, pyRound2 a, c.value⟩]) := by
  obtain ⟨hapos, hx⟩ := mkExpenseExtraction_ok hmk
  subst hx
  have hg : (truthy_str (some d) && truthy_amount (some (pyRound2 a))
      && truthy_cat (some c)) = true := by
    simp [truthy_str, truthy_amount, truthy_cat, hd1, ne_of_gt ha]
  have hlen : 1 ≤ d.length := one_le_length_of_ne_empty hd1
  have hmkc : mkExpenseCreate uid d (pyRound2 a) c
      = .ok ⟨uid, d, pyRound2 a, c⟩ := by
    unfold mkExpenseCreate
    rw [if_neg (by omega), if_neg (by omega), if_neg (by omega),
      if_neg (not_le.mpr ha), if_neg (by simp [decimalPlaces2_pyRound2])]
  simp [process_message, hg, hmkc, create_expense]

/-- Witness for C2 at the spec's scenario: extraction
`{is_expense: true, description: "Pizza", amount: 20.0, category: Food}`
for user 1 persists one row with amount exactly 20 and returns the Food
confirmation with the new expense id. -/
theorem C2_witness :
    process_message 1 (.ok ⟨true, some "Pizza", some 20, some .food⟩) false []
      = (⟨true, "Food expense added ✅", some 1⟩,
        [⟨1, 1, "Pizza", 20, "Food"⟩]) := by
  have h20 : pyRound2 20 = 20 := by norm_num [pyRound2, roundHalfEven]
  have h := C2_complete_triple_persists 1 "Pizza" 20 .food
    ⟨true, some "Pizza", some 20, some .food⟩ []
    (by rw [show mkExpenseExtraction true (some "Pizza") (some 20) (some .food)
          = .ok ⟨true, some "Pizza", some (pyRound2 20), some .food⟩ from by
        norm_num [mkExpenseExtraction], h20])
    (by norm_num) (by decide) (by decide) (by rw [h20]; norm_num)
  simpa [h20, ExpenseCategory.value] using h

/-- The 501-character description used to refute C2 as literally stated. -/
def longDescription : String :=
  String.mk (List.replicate 501 'a')

/-- Counterexample to C2 as stated: two extractions with `is_expense=true`
and a complete triple (description present, amount 20 > 0, category Food)
for which `process_message` — with a working store and a positive user
id — persists nothing and returns a failure outcome: a 501-character
description fails the `ExpenseCreate` 500-character bound inside the
`try` block, and an empty (but present) description is Python-falsy and
takes the incomplete branch. -/
theorem C2_counterexample :
    mkExpenseExtraction true (some longDescription) (some 20) (some .food)
      = .ok ⟨true, some longDescription, some 20, some .food⟩ ∧
    process_message 1
        (.ok ⟨true, some longDescription, some 20, some .food⟩) false []
      = (⟨false, genericErrorMessage, none⟩, []) ∧
    mkExpenseExtraction true (some "") (some 20) (some .food)
      = .ok ⟨true, some "", some 20, some .food⟩ ∧
    process_message 1 (.ok ⟨true, some "", some 20, some .food⟩) false []
      = (⟨false, incompleteMessage, none⟩, []) := by
  have h20 : pyRound2 20 = 20 := by norm_num [pyRound2, roundHalfEven]
  have hne : longDescription ≠ "" := by
    intro hc
    have hdata : List.replicate 501 'a' = [] := congrArg String.data hc
    have hl := congrArg List.length hdata
    rw [List.length_replicate, List.length_nil] at hl
    exact absurd hl (by omega)
  have hlen : longDescription.length = 501 := by
    show (List.replicate 501 'a').length = 501
    exact List.length_replicate 501 'a'
  refine ⟨?_, ?_, ?_, ?_⟩
  · rw [show mkExpenseExtraction true (some longDescription) (some 20)
          (some .food)
        = .ok ⟨true, some longDescription, some (pyRound2 20), some .food⟩ from by
      norm_num [mkExpenseExtraction], h20]
  · have hg : (truthy_str (some longDescription) && truthy_amount (some (20 : ℚ))
        && truthy_cat (some ExpenseCategory.food)) = true := by
      simp [truthy_str, truthy_amount, truthy_cat, hne]
    have hmkc : mkExpenseCreate 1 longDescription 20 ExpenseCategory.food
        = .error "String should have at most 500 characters" := by
      unfold mkExpenseCreate
      rw [if_neg (by omega), if_neg (by omega), if_pos (by omega)]
    simp [process_message, hg, hmkc]
  · rw [show mkExpenseExtraction true (some "") (some 20) (some .food)
        = .ok ⟨true, some "", some (pyRound2 20), some .food⟩ from by
      norm_num [mkExpenseExtraction], h20]
  · simp [process_message, truthy_str]

/-- `strFind` misses exactly the absent characters. -/
theorem strFind_eq_none {c : Char} {s : List Char} :
    strFind c s = none ↔ c ∉ s := by
  induction s with
  | nil => simp [strFind]
  | cons a as ih =>
    by_cases h : a = c
    · subst h
      simp [strFind]
    · have h2 : ¬ c = a := fun hc => h hc.symm
      simp [strFind, h, h2, ih]

/-- `strRfind` misses exactly the absent characters. -/
theorem strRfind_eq_none {c : Char} {s : List Char} :
    strRfind c s = none ↔ c ∉ s := by
  simp [strRfind, strFind_eq_none]

/-- Skipping a prefix without the sought character shifts `strFind`. -/
theorem strFind_append {c : Char} {xs : List Char} (ys : List Char)
    (h : c ∉ xs) :
    strFind c (xs ++ ys) = (strFind c ys).map (· + xs.length) := by
  induction xs with
  | nil =>
    rw [List.nil_append]
    cases strFind c ys <;> simp
  | cons a as ih =>
    have ha : ¬ a = c := fun hc => h (hc ▸ List.mem_cons_self a as)
    have has : c ∉ as := fun hc => h (List.mem_cons_of_mem a hc)
    cases hys : strFind c ys <;>
      simp [strFind, ha, ih has, hys, Nat.add_assoc]

/-- The first occurrence right after a clean prefix is found at the
prefix's length. -/
theorem strFind_prefix_cons (c : Char) (pre rest : List Char)
    (h : c ∉ pre) :
    strFind c (pre ++ c :: rest) = some pre.length := by
  rw [strFind_append _ h]
  simp [strFind]

/-- Where `strRfind` lands on prose–JSON–prose text whose trailer has no
closing brace: at the closing brace of the JSON block. -/
theorem strRfind_wrapped (pre mid post : List Char) (hpost : '}' ∉ post) :
    strRfind '}' (pre ++ ('{' :: mid ++ ['}']) ++ post)
      = some (pre.length + mid.length + 1) := by
  have hrev : (pre ++ ('{' :: mid ++ ['}']) ++ post).reverse
      = post.reverse ++ '}' :: (mid.reverse ++ '{' :: pre.reverse) := by
    simp
  unfold strRfind
  rw [hrev, strFind_prefix_cons _ _ _ (by simpa using hpost)]
  simp only [Option.map_some']
  congr 1
  simp only [List.length_append, List.length_cons, List.length_nil,
    List.length_reverse]
  omega

/-- C5: tolerant fallback parsing. For every text of the form
`pre ++ "{"..."}" ++ post` where the leading prose has no `{` and the
trailing prose has no `}`, `extract_and_parse_json` hands exactly the
embedded JSON block to the decoder, so it yields the same result as
strict parsing of the embedded JSON alone; and on any text lacking a `{`
or lacking a `}` it fails with the `ValueError` instead of producing a
result. -/
theorem C5_tolerant_fallback
    (loads : List Char → Except String ExpenseExtraction)
    (pre mid post : List Char) (hpre : '{' ∉ pre) (hpost : '}' ∉ post) :
    extract_and_parse_json loads (pre ++ ('{' :: mid ++ ['}']) ++ post)
      = loads ('{' :: mid ++ ['}']) ∧
    ∀ text : List Char, ('{' ∉ text ∨ '}' ∉ text) →
      extract_and_parse_json loads text = .error "No JSON found in response" := by
  constructor
  · have hfind : strFind '{' (pre ++ ('{' :: mid ++ ['}']) ++ post)
        = some pre.length := by
      have h := strFind_prefix_cons '{' pre ((mid ++ ['}']) ++ post) hpre
      rw [show pre ++ ('{' :: mid ++ ['}']) ++ post
          = pre ++ '{' :: ((mid ++ ['}']) ++ post) from by simp]
      exact h
    have hrf := strRfind_wrapped pre mid post hpost
    unfold extract_and_parse_json
    rw [hfind, hrf]
    show loads (((pre ++ ('{' :: mid ++ ['}']) ++ post).drop pre.length).take
        (pre.length + mid.length + 1 + 1 - pre.length)) = loads ('{' :: mid ++ ['}'])
    have harith : pre.length + mid.length + 1 + 1 - pre.length
        = ('{' :: mid ++ ['}']).length := by
      simp only [List.length_cons, List.length_append, List.length_nil]
      omega
    rw [harith]
    have hdrop : (pre ++ ('{' :: mid ++ ['}']) ++ post).drop pre.length
        = ('{' :: mid ++ ['}']) ++ post := by
      rw [List.append_assoc]
      exact List.drop_left pre _
    rw [hdrop, List.take_left]
  · intro text h
    rcases h with h | h
    · cases hy : strRfind '}' text <;>
        simp [extract_and_parse_json, strFind_eq_none.mpr h, hy]
    · cases hx : strFind '{' text <;>
        simp [extract_and_parse_json, strRfind_eq_none.mpr h, hx]

/-- A concrete JSON decoder stub used to witness C5: defined only on the
embedded JSON block. -/
def loadsDemo : List Char → Except String ExpenseExtraction := fun t =>
  if t = '{' :: "\"is_expense\": false".toList ++ ['}'] then
    .ok ⟨false, none, none, none⟩
  else .error "Invalid json output"

/-- Witness for C5 on the spec's example shape
`blah blah {...} trailing`, plus a brace-free text that fails. -/
theorem C5_witness :
    extract_and_parse_json loadsDemo
        ("blah blah ".toList ++ ('{' :: "\"is_expense\": false".toList ++ ['}'])
          ++ " trailing".toList)
      = loadsDemo ('{' :: "\"is_expense\": false".toList ++ ['}']) ∧
    extract_and_parse_json loadsDemo "no json here".toList
      = .error "No JSON found in response" := by
  have h := C5_tolerant_fallback loadsDemo "blah blah ".toList
    "\"is_expense\": false".toList " trailing".toList (by decide) (by decide)
  exact ⟨h.1, h.2 _ (Or.inl (by decide))⟩
